import Mathlib

/-!
Verification development for the streaming diagnostic core of the
`streaming_demo_foundrylocal` repository.

Strings from the TypeScript source are modelled as `List Char`; chunk
streams as `List (List Char)`; wall-clock instants as `Nat` (epoch ms).
Each definition names the source construct it embeds:

* `feedSplit`, `splitNl`, `procSeg`, `dataPayload`, `feedMany`,
  `parseSSEEvents` — the hand-rolled SSE decoder `parseSSE`
  (src/sse/parser.ts, lines 183-236 of the models/resolver.ts bundle);
* `parseSSEAbortRun` — the same decoder instrumented with the abort
  signal checked at the top of each read iteration;
* `streamLoop`, `streamOutcome` — the probe-side SSE consumption loop and
  success-path outcome formula shared by `runRawStreamingProbe`
  (probes/raw-streaming.ts 113-146) and `testStreaming`
  (benchmark/runner.ts 197-224);
* `classifyStreamErr`, `classifyNsErr` — the catch-block outcome
  classifiers (raw-streaming.ts 167-171, runner.ts 240-244,
  non-streaming.ts 95);
* `TimerState` with `markTTFB`, `markFirstEvent`, `timerStop`,
  `toTimings` — the `Timer` class (utils/timing.ts);
* `verdictOf` — the benchmark verdict derivation (benchmark/index.ts
  96-111 and the web server's /api/benchmark route);
* `runRawStreamingProbeModel`, `runNonStreamingProbeModel`,
  `runCopilotSdkStreamingModel` — the probe functions as total functions
  of an explicit network environment.
-/

/-- The whitespace test of JS `String.prototype.trim`/`trimStart` for the
ASCII range this protocol produces: space, tab, line feed, carriage
return, vertical tab, form feed. -/
def isWsChar (c : Char) : Bool :=
  c = ' ' || c = '\t' || c = '\n' || c = '\r' || c = '\x0b' || c = '\x0c'

/-- JS `trimStart()` on a list of characters. -/
def trimStartL (s : List Char) : List Char := s.dropWhile isWsChar

/-- JS `trimEnd()` on a list of characters. -/
def trimEndL (s : List Char) : List Char := (s.reverse.dropWhile isWsChar).reverse

/-- JS `trim()` on a list of characters. -/
def trimL (s : List Char) : List Char := trimEndL (trimStartL s)

/-- Prepend a character to the first piece of a line split. -/
def consHead (c : Char) : List (List Char) → List (List Char)
  | [] => [[c]]
  | l :: ls => (c :: l) :: ls

/-- JS `split(/\n/)`: split into lines at every single newline. -/
def splitNl : List Char → List (List Char)
  | [] => [[]]
  | c :: rest => if c = '\n' then [] :: splitNl rest else consHead c (splitNl rest)

/-- Prepend a character to the first complete segment of a `feedSplit`
result, or to the remainder when there is no complete segment. -/
def consFst (c : Char) : List (List Char) × List Char → List (List Char) × List Char
  | ([], rem) => ([], c :: rem)
  | (s :: ss, rem) => ((c :: s) :: ss, rem)

/-- JS `buffer.split(/\n\n/)` with the last piece separated off: returns
(complete segments, trailing remainder).  Matches of the two-newline
delimiter are found leftmost-first and do not overlap, exactly as the
regex split does (so `"\n\n\n"` splits into `""` and remainder `"\n"`). -/
def feedSplit : List Char → List (List Char) × List Char
  | [] => ([], [])
  | [c] => ([], [c])
  | c :: d :: rest =>
    if c = '\n' ∧ d = '\n' then
      ([] :: (feedSplit rest).1, (feedSplit rest).2)
    else consFst c (feedSplit (d :: rest))

/-- The five characters of the fixed `data:` field prefix. -/
def dataPre : List Char := 'd' :: 'a' :: 't' :: 'a' :: ':' :: []

/-- Handling of one line inside a segment (parser lines 213-216 and
227-229): a line starting with the fixed 5-char `data:` prefix yields
the payload `line.slice(5).trimStart()`; every other line is ignored. -/
def dataPayload (line : List Char) : Option (List Char) :=
  if dataPre.isPrefixOf line then some (trimStartL (line.drop 5)) else none

/-- Processing of one complete SSE segment, and equally of the final
flushed buffer (parser lines 207-219 and 224-232): trim the segment,
split it into lines, keep the `data:` payloads.  An all-whitespace
segment is skipped by the source's `if (!trimmed) continue`, which
coincides with this function yielding no payload for it. -/
def procSeg (seg : List Char) : List (List Char) :=
  (splitNl (trimL seg)).filterMap dataPayload

/-- Events yielded from a list of complete segments, in order. -/
def segsEvents (segs : List (List Char)) : List (List Char) :=
  segs.foldr (fun s acc => procSeg s ++ acc) []

/-- The read/accumulate loop of `parseSSE` without the final flush:
feed each chunk into the buffer, split off complete segments, yield
their events; returns (events, final buffer). -/
def feedMany : List Char → List (List Char) → List (List Char) × List Char
  | buf, [] => ([], buf)
  | buf, c :: cs =>
    let p := feedSplit (buf ++ c)
    let q := feedMany p.2 cs
    (segsEvents p.1 ++ q.1, q.2)

/-- Events available from the generator before stream termination is
observed (no flush: the flush only runs when the read reports `done`). -/
def feedEvents (chunks : List (List Char)) : List (List Char) :=
  (feedMany [] chunks).1

/-- `parseSSE` run to natural completion on a chunk sequence: the loop
events followed by the flush of whatever remains in the buffer. -/
def parseSSEEvents (chunks : List (List Char)) : List (List Char) :=
  (feedMany [] chunks).1 ++ procSeg (feedMany [] chunks).2

/-- Decoding a whole input in one pass: events of the complete segments,
then the flushed tail.  `parseSSEEvents [s]` computes exactly this. -/
def parseOne (s : List Char) : List (List Char) :=
  segsEvents (feedSplit s).1 ++ procSeg (feedSplit s).2

/-- Concatenation of a chunk sequence into one chunk. -/
def joinAll (cs : List (List Char)) : List Char := cs.foldr (· ++ ·) []

/-- The two-newline event delimiter. -/
def nlnl : List Char := '\n' :: '\n' :: []

/-- JS `haystack.includes(needle)` on character lists: substring test. -/
def containsSub (s sub : List Char) : Bool :=
  match s with
  | [] => sub.isEmpty
  | _ :: rest => sub.isPrefixOf s || containsSub rest sub

/-- Whether the abort signal is observed active once `pts` suspension
points (awaited reads and event yields) have completed, for a signal
that becomes active after `m` such points (`none`: never aborted). -/
def sigActive : Option Nat → Nat → Bool
  | none, _ => false
  | some m, pts => decide (m ≤ pts)

/-- `parseSSE` instrumented with its cancellation check (parser lines
192-195): the signal is inspected once at the top of each iteration of
the read loop, before the next read; a chunk whose processing has begun
is processed to completion, each of its events counting as one further
suspension point.  Returns (events yielded, whether an AbortError was
raised).  An abort observed after the final chunk suppresses the flush. -/
def parseSSEAbortRun (act : Option Nat) : Nat → List Char → List (List Char) → List (List Char) × Bool
  | pts, buf, chunks =>
    if sigActive act pts then ([], true)
    else
      match chunks with
      | [] => (procSeg buf, false)
      | c :: cs =>
        let p := feedSplit (buf ++ c)
        let evs := segsEvents p.1
        let r := parseSSEAbortRun act (pts + 1 + evs.length) p.2 cs
        (evs ++ r.1, r.2)

/-- A run of the decoder under an abort signal, from the initial empty
buffer, with no suspension point completed yet. -/
def parseSSEWithSignal (act : Option Nat) (chunks : List (List Char)) : List (List Char) × Bool :=
  parseSSEAbortRun act 0 [] chunks

/-- The closed outcome taxonomy (types.ts `ProbeOutcome`). -/
inductive ProbeOutcome
  | OK
  | FAIL
  | TIMEOUT
  | NO_FIRST_BYTE
  | NO_FIRST_EVENT
  | HANG
  | ERROR
  deriving DecidableEq

/-- Abort reason set by the first-byte timer. -/
def fbTag : List Char := ("FIRST_BYTE_TIMEOUT").toList

/-- Abort reason set by the first-event timer. -/
def feTag : List Char := ("FIRST_EVENT_TIMEOUT").toList

/-- Abort reason set by the overall request timer. -/
def reqTag : List Char := ("REQUEST_TIMEOUT").toList

/-- Generic abort markers recognised by the catch blocks. -/
def abortErrTag : List Char := ("AbortError").toList

/-- Generic abort markers recognised by the catch blocks. -/
def abortedTag : List Char := ("aborted").toList

/-- The streaming catch-block classifier (raw-streaming.ts 167-171,
identical in runner.ts 240-244): successive substring tests on the
error message. -/
def classifyStreamErr (msg : List Char) : ProbeOutcome :=
  if containsSub msg fbTag then .NO_FIRST_BYTE
  else if containsSub msg feTag then .NO_FIRST_EVENT
  else if containsSub msg reqTag then .TIMEOUT
  else if containsSub msg abortErrTag || containsSub msg abortedTag then .TIMEOUT
  else .ERROR

/-- The non-streaming catch-block classifier (non-streaming.ts 95,
runner.ts 103). -/
def classifyNsErr (msg : List Char) : ProbeOutcome :=
  if containsSub msg reqTag then .TIMEOUT else .ERROR

/-- The `[DONE]` completion sentinel. -/
def doneTok : List Char := ("[DONE]").toList

/-- The probe-side SSE consumption loop (raw-streaming.ts 113-141,
runner.ts 197-220): count every event, break at the first `[DONE]`.
Returns (chunkCount, doneReceived). -/
def streamLoop : List (List Char) → Nat × Bool
  | [] => (0, false)
  | e :: rest =>
    if e = doneTok then (1, true)
    else ((streamLoop rest).1 + 1, (streamLoop rest).2)

/-- The streaming success-path outcome formula (raw-streaming.ts 146,
runner.ts 224): `doneReceived ? OK : chunkCount > 0 ? FAIL :
NO_FIRST_EVENT`. -/
def streamOutcome (p : Nat × Bool) : ProbeOutcome :=
  if p.2 then .OK else if 0 < p.1 then .FAIL else .NO_FIRST_EVENT

/-- How the response body stream terminates: a natural end of stream, or
a read rejection carrying an error message (e.g. the abort reason). -/
inductive StreamEnd
  | natural
  | errorWith (msg : List Char)

/-- A streaming response body: the text chunks delivered, then how the
stream ends. -/
structure StreamBody where
  chunks : List (List Char)
  ending : StreamEnd

/-- Environment of one `fetch` call for the streaming probe: either the
promise rejects with an error message, or a response arrives with a
status, its `ok` flag, an error body text and an optional stream body. -/
inductive FetchOutcome
  | reject (msg : List Char)
  | resolve (status : Nat) (ok : Bool) (errText : List Char) (body : Option StreamBody)

/-- The fields of a `ProbeResult` the claims reason about (headers,
timings, tokenPreview and payloadHash are carried unchanged alongside
and are not consulted by any claim). -/
structure ProbeRunResult where
  outcome : ProbeOutcome
  httpStatus : Option Nat
  chunkCount : Option Nat
  doneReceived : Option Bool
  error : Option (List Char)
  deriving DecidableEq

/-- The `HTTP ${status}: ${errText.slice(0, 500)}` error string. -/
def httpErrMsg (status : Nat) (errText : List Char) : List Char :=
  ("HTTP ").toList ++ Nat.toDigits 10 status ++ (": ").toList ++ errText.take 500

/-- `runRawStreamingProbe` (probes/raw-streaming.ts 21-189) as a total
function of the network environment.  Every failure mode ends in a
returned result: a fetch rejection or a mid-stream read error lands in
the catch block and is classified by `classifyStreamErr`; a non-2xx
response or a missing body returns `FAIL` before streaming; otherwise
the consumption loop runs and the success-path formula applies.  A read
error never surfaces when the loop already broke at `[DONE]`. -/
def runRawStreamingProbeModel : FetchOutcome → ProbeRunResult
  | .reject msg => ⟨classifyStreamErr msg, none, none, none, some msg⟩
  | .resolve status ok errText body =>
    if ok = false then
      ⟨.FAIL, some status, none, none, some (httpErrMsg status errText)⟩
    else
      match body with
      | none =>
        ⟨.FAIL, some status, none, none, some (("Response body is null – cannot stream").toList)⟩
      | some sb =>
        match sb.ending with
        | .natural =>
          let p := streamLoop (parseSSEEvents sb.chunks)
          ⟨streamOutcome p, some status, some p.1, some p.2, none⟩
        | .errorWith m =>
          let p := streamLoop (feedEvents sb.chunks)
          if p.2 then ⟨.OK, some status, some p.1, some p.2, none⟩
          else ⟨classifyStreamErr m, some status, none, none, some m⟩

/-- Result of `res.json()` for the non-streaming probe: a parse failure
(malformed body) or a value that does or does not carry a `choices`
array. -/
inductive JsonOutcome
  | malformed (msg : List Char)
  | value (hasChoices : Bool)

/-- Environment of one `fetch` call for the non-streaming probe. -/
inductive NsFetchOutcome
  | reject (msg : List Char)
  | resolve (status : Nat) (ok : Bool) (errText : List Char) (json : JsonOutcome)

/-- `runNonStreamingProbe` (probes/non-streaming.ts 22-107) as a total
function of the network environment.  A fetch rejection or a JSON parse
failure is classified by the catch block (`REQUEST_TIMEOUT` in the
message gives `TIMEOUT`, anything else `ERROR`); a non-2xx response
gives `FAIL`; a body without a `choices` array gives `FAIL`. -/
def runNonStreamingProbeModel : NsFetchOutcome → ProbeRunResult
  | .reject msg => ⟨classifyNsErr msg, none, none, none, some msg⟩
  | .resolve status ok errText json =>
    if ok = false then
      ⟨.FAIL, some status, none, none, some (httpErrMsg status errText)⟩
    else
      match json with
      | .malformed m => ⟨classifyNsErr m, none, none, none, some m⟩
      | .value hasChoices =>
        if hasChoices then ⟨.OK, some status, none, none, none⟩
        else ⟨.FAIL, some status, none, none,
              some (("Response JSON missing \x27choices\x27 array").toList)⟩

/-- The wall-clock stopwatch `Timer` (utils/timing.ts): start is fixed on
construction; the three marks are first-call-wins; `endT` is fixed by the
first stop. -/
structure TimerState where
  startT : Nat
  endT : Option Nat
  ttfb : Option Nat
  firstEvent : Option Nat
  deriving DecidableEq

/-- `new Timer()` at instant `now`. -/
def timerNew (now : Nat) : TimerState := ⟨now, none, none, none⟩

/-- `Timer.markTTFB()` at instant `now`: only the first call records. -/
def markTTFB (s : TimerState) (now : Nat) : TimerState :=
  match s.ttfb with
  | none => { s with ttfb := some (now - s.startT) }
  | some _ => s

/-- `Timer.markFirstEvent()` at instant `now`: only the first call
records. -/
def markFirstEvent (s : TimerState) (now : Nat) : TimerState :=
  match s.firstEvent with
  | none => { s with firstEvent := some (now - s.startT) }
  | some _ => s

/-- `Timer.stop()` at instant `now`: idempotent. -/
def timerStop (s : TimerState) (now : Nat) : TimerState :=
  match s.endT with
  | none => { s with endT := some now }
  | some _ => s

/-- The `ProbeTimings` record (types.ts). -/
structure TimingsM where
  startMs : Nat
  endMs : Nat
  totalMs : Nat
  ttfbMs : Option Nat
  firstEventMs : Option Nat
  deriving DecidableEq

/-- `Timer.toTimings()` at instant `now`: stops the timer if not yet
stopped, then snapshots.  Returns the updated timer state and the
snapshot. -/
def toTimings (s : TimerState) (now : Nat) : TimerState × TimingsM :=
  let s2 := timerStop s now
  let e := s2.endT.getD now
  (s2, ⟨s2.startT, e, e - s2.startT, s2.ttfb, s2.firstEvent⟩)

/-- The exact Timer call sequence of `runRawStreamingProbe`'s success
path: construction (line 22), `markTTFB` on headers (73), the logging
snapshot `timer.toTimings()` inside the headers console.log (78),
`markFirstEvent` on the first SSE event (119), the logging snapshot
inside the first-event console.log (121), `stop` after the loop (143),
and the final `toTimings` (144). -/
def rawStreamingSuccessTimings (t0 tHeaders tLog tFirstEvent tLog2 tEnd : Nat) : TimingsM :=
  let s0 := timerNew t0
  let s1 := markTTFB s0 tHeaders
  let s2 := (toTimings s1 tLog).1
  let s3 := markFirstEvent s2 tFirstEvent
  let s4 := (toTimings s3 tLog2).1
  let s5 := timerStop s4 tEnd
  (toTimings s5 tEnd).2

/-- The benchmark verdict enumeration (benchmark/types.ts). -/
inductive Verdict
  | BOTH_OK
  | STREAM_ONLY_FAIL
  | NON_STREAM_FAIL
  | BOTH_FAIL
  deriving DecidableEq

/-- The verdict derivation (benchmark/index.ts 103-108 and the web
server's /api/benchmark route): a function of the two child outcomes
compared against `OK`, and of nothing else. -/
def verdictOf (nsOutcome sOutcome : ProbeOutcome) : Verdict :=
  if nsOutcome = .OK ∧ sOutcome = .OK then .BOTH_OK
  else if nsOutcome = .OK ∧ ¬ sOutcome = .OK then .STREAM_ONLY_FAIL
  else if ¬ nsOutcome = .OK ∧ sOutcome = .OK then .NON_STREAM_FAIL
  else .BOTH_FAIL

/-- The `"stop"` finish reason. -/
def stopTok : List Char := ("stop").toList

/-- One chunk as delivered by the OpenAI SDK stream iterator: optional
delta content and optional finish reason. -/
structure SdkChunk where
  content : Option (List Char)
  finishReason : Option (List Char)

/-- The SDK probe's iteration (copilot-sdk-streaming 96-119): count every
chunk, set `doneReceived` when some chunk carries finish reason
`stop`. -/
def sdkLoop : List SdkChunk → Nat × Bool
  | [] => (0, false)
  | c :: rest =>
    let p := sdkLoop rest
    (p.1 + 1, p.2 || decide (c.finishReason = some stopTok))

/-- The relevant fields of the SDK probe's result. -/
structure SdkRunResult where
  outcome : ProbeOutcome
  chunkCount : Nat
  doneReceived : Bool

/-- `runCopilotSdkStreamingProbe`'s non-exception path (copilot-sdk
probe, lines 96-129): iterate the stream, then force `doneReceived` when
the iterator completed with at least one chunk (lines 122-124), then the
shared outcome formula (line 129). -/
def runCopilotSdkStreamingModel (chunks : List SdkChunk) : SdkRunResult :=
  let p := sdkLoop chunks
  let done := if p.2 = false ∧ 0 < p.1 then true else p.2
  ⟨if done then .OK else if 0 < p.1 then .FAIL else .NO_FIRST_EVENT, p.1, done⟩

/-- A split without complete segments leaves the whole input as
remainder. -/
theorem feedSplit_fst_nil : ∀ s : List Char, (feedSplit s).1 = [] → (feedSplit s).2 = s := by
  intro s
  induction s using feedSplit.induct with
  | case1 => intro _; rfl
  | case2 c => intro _; rfl
  | case3 c d rest h ih => simp [feedSplit, h]
  | case4 c d rest h ih =>
      rw [feedSplit, if_neg h]
      rcases hA : feedSplit (d :: rest) with ⟨a1, a2⟩
      cases a1 with
      | nil =>
          intro _
          have h2 := ih (by rw [hA])
          rw [hA] at h2
          simp [consFst]
          exact h2
      | cons s1 ss => simp [consFst]

/-- Splitting a concatenation: the complete segments of `s` stay
complete, and scanning continues through `s`'s remainder joined with
`r`.  This is the compositional core of the incremental decoder. -/
theorem feedSplit_append (r : List Char) : ∀ s : List Char,
    feedSplit (s ++ r) =
      ((feedSplit s).1 ++ (feedSplit ((feedSplit s).2 ++ r)).1,
       (feedSplit ((feedSplit s).2 ++ r)).2) := by
  intro s
  induction s using feedSplit.induct with
  | case1 => simp [feedSplit]
  | case2 c => simp [feedSplit]
  | case3 c d rest h ih =>
      obtain ⟨hc, hd⟩ := h
      subst hc; subst hd
      show feedSplit ('\n' :: '\n' :: (rest ++ r)) = _
      rw [feedSplit, if_pos ⟨rfl, rfl⟩, ih]
      conv_rhs => rw [feedSplit, if_pos ⟨rfl, rfl⟩]
      simp
  | case4 c d rest h ih =>
      show feedSplit (c :: d :: (rest ++ r)) = _
      rw [feedSplit, if_neg h]
      have hdr : d :: (rest ++ r) = (d :: rest) ++ r := rfl
      rw [hdr, ih]
      conv_rhs => rw [feedSplit, if_neg h]
      rcases hA : feedSplit (d :: rest) with ⟨a1, a2⟩
      cases a1 with
      | nil =>
          have h2 : a2 = d :: rest := by
            have := feedSplit_fst_nil (d :: rest) (by rw [hA])
            rw [hA] at this
            exact this
          subst h2
          simp only [consFst, List.nil_append]
          rw [show (c :: d :: rest) ++ r = c :: d :: (rest ++ r) from rfl]
          rw [feedSplit, if_neg h, hdr]
          rw [Prod.mk.eta, Prod.mk.eta]
          rfl
      | cons s1 ss =>
          simp only [consFst, List.cons_append]

/-- The remainder kept in the buffer never itself contains a complete
segment: splitting it again yields no complete segments. -/
theorem feedSplit_rem_fst (s : List Char) : (feedSplit ((feedSplit s).2)).1 = [] := by
  have h := feedSplit_append [] s
  simp only [List.append_nil] at h
  have h1 : (feedSplit s).1 = (feedSplit s).1 ++ (feedSplit ((feedSplit s).2)).1 := by
    conv_lhs => rw [h]
  have h2 := congrArg List.length h1
  simp only [List.length_append] at h2
  have h3 : ((feedSplit ((feedSplit s).2)).1).length = 0 := by omega
  exact List.eq_nil_of_length_eq_zero h3

/-- Events of concatenated segment lists concatenate. -/
theorem segsEvents_append (a b : List (List Char)) :
    segsEvents (a ++ b) = segsEvents a ++ segsEvents b := by
  induction a with
  | nil => simp [segsEvents]
  | cons s ss ih => simp [segsEvents, List.foldr_cons] at ih ⊢; rw [ih]

/-- Invariant of the incremental decoder: starting from a buffer that
contains no complete segment, the events of the loop followed by the
flush are the events of decoding the buffer and all remaining chunks as
one input. -/
theorem feedMany_parseOne : ∀ (cs : List (List Char)) (buf : List Char),
    (feedSplit buf).1 = [] →
    (feedMany buf cs).1 ++ procSeg (feedMany buf cs).2 = parseOne (buf ++ joinAll cs) := by
  intro cs
  induction cs with
  | nil =>
      intro buf hbuf
      have h2 := feedSplit_fst_nil buf hbuf
      simp [feedMany, parseOne, joinAll, hbuf, h2, segsEvents]
  | cons c cs ih =>
      intro buf hbuf
      have hrem := feedSplit_rem_fst (buf ++ c)
      have ihr := ih (feedSplit (buf ++ c)).2 hrem
      have hL : (feedMany buf (c :: cs)).1 ++ procSeg (feedMany buf (c :: cs)).2 =
          segsEvents (feedSplit (buf ++ c)).1 ++
            ((feedMany (feedSplit (buf ++ c)).2 cs).1 ++
              procSeg (feedMany (feedSplit (buf ++ c)).2 cs).2) := by
        simp [feedMany, List.append_assoc]
      rw [hL, ihr]
      have hA : buf ++ joinAll (c :: cs) = (buf ++ c) ++ joinAll cs := by
        have : joinAll (c :: cs) = c ++ joinAll cs := rfl
        rw [this, List.append_assoc]
      rw [hA]
      unfold parseOne
      rw [feedSplit_append (joinAll cs) (buf ++ c)]
      rw [segsEvents_append, List.append_assoc]

/-- C5: for every input text and every way of splitting it into chunks,
the sequence of SSE data payloads produced by parseSSE over the chunk
sequence equals the sequence produced by feeding the whole concatenated
text as one chunk; in particular feeding "data: a\n\n" then
"data: b\n\n" yields the events ["a", "b"], the same as the single
chunk "data: a\n\ndata: b\n\n". -/
theorem claim_C5_decoder_segmentation :
    (∀ cs : List (List Char), parseSSEEvents cs = parseSSEEvents [joinAll cs]) ∧
    parseSSEEvents [("data: a\n\n").toList, ("data: b\n\n").toList] =
      [("a").toList, ("b").toList] := by
  refine ⟨?_, by decide⟩
  intro cs
  have h1 := feedMany_parseOne cs [] rfl
  have h2 := feedMany_parseOne [joinAll cs] [] rfl
  unfold parseSSEEvents
  rw [h1, h2]
  simp [joinAll]

/-- The consumption loop reports the sentinel exactly when `[DONE]` is
among the delivered events. -/
theorem streamLoop_snd_iff (evs : List (List Char)) :
    (streamLoop evs).2 = true ↔ doneTok ∈ evs := by
  induction evs with
  | nil => simp [streamLoop]
  | cons e rest ih =>
      by_cases he : e = doneTok
      · simp [streamLoop, he]
      · simp [streamLoop, he, ih, Ne.symm he]

/-- The consumption loop counts zero events exactly on the empty event
sequence. -/
theorem streamLoop_fst_zero_iff (evs : List (List Char)) :
    (streamLoop evs).1 = 0 ↔ evs = [] := by
  cases evs with
  | nil => simp [streamLoop]
  | cons e rest => by_cases he : e = doneTok <;> simp [streamLoop, he]

/-- C1: on the non-exception path of the streaming probes
(runRawStreamingProbe and testStreaming), the outcome is OK iff the
[DONE] sentinel was received, FAIL iff at least one chunk arrived but
the sentinel never came, and NO_FIRST_EVENT iff the stream ended
naturally with zero chunks received. -/
theorem claim_C1_streaming_outcome_taxonomy :
    ∀ evs : List (List Char),
      (streamOutcome (streamLoop evs) = .OK ↔ doneTok ∈ evs) ∧
      (streamOutcome (streamLoop evs) = .FAIL ↔
        (decide (doneTok ∈ evs) = false ∧ 0 < evs.length)) ∧
      (streamOutcome (streamLoop evs) = .NO_FIRST_EVENT ↔ evs = []) := by
  intro evs
  have hs := streamLoop_snd_iff evs
  have hz := streamLoop_fst_zero_iff evs
  unfold streamOutcome
  cases hb : (streamLoop evs).2 with
  | true =>
      rw [hb] at hs
      simp at hs
      have hne : evs ≠ [] := List.ne_nil_of_mem hs
      simp [hs, hne]
  | false =>
      rw [hb] at hs
      simp at hs
      by_cases hn : (streamLoop evs).1 = 0
      · have he : evs = [] := hz.mp hn
        subst he
        simp [streamLoop]
      · have hp : 0 < (streamLoop evs).1 := Nat.pos_of_ne_zero hn
        have hne : evs ≠ [] := fun h => hn (hz.mpr h)
        have hlen : 0 < evs.length := List.length_pos.mpr hne
        simp [hp, hs, hne, hlen]

/-- C4: the benchmark verdict is a pure function of whether each child
outcome equals OK: (OK, OK) gives BOTH_OK, (OK, not-OK) gives
STREAM_ONLY_FAIL, (not-OK, OK) gives NON_STREAM_FAIL, and (not-OK,
not-OK) gives BOTH_FAIL. -/
theorem claim_C4_verdict_purity :
    ∀ ns s : ProbeOutcome,
      (verdictOf ns s = .BOTH_OK ↔ (ns = .OK ∧ s = .OK)) ∧
      (verdictOf ns s = .STREAM_ONLY_FAIL ↔ (ns = .OK ∧ ¬ s = .OK)) ∧
      (verdictOf ns s = .NON_STREAM_FAIL ↔ (¬ ns = .OK ∧ s = .OK)) ∧
      (verdictOf ns s = .BOTH_FAIL ↔ (¬ ns = .OK ∧ ¬ s = .OK)) := by
  intro ns s
  cases ns <;> cases s <;> decide

/-- C3: the streaming catch-block classification is driven by the named
abort reason carried in the error message: FIRST_BYTE_TIMEOUT gives
NO_FIRST_BYTE, FIRST_EVENT_TIMEOUT gives NO_FIRST_EVENT,
REQUEST_TIMEOUT gives TIMEOUT, and only messages carrying none of the
named reasons fall through to the generic-abort/ERROR handling.  (An
abort reason is set at most once, so a reachable error message carries
at most one of the named tags; the disjointness hypotheses record
that.) -/
theorem claim_C3_abort_reason_classification :
    ∀ msg : List Char,
      (containsSub msg fbTag = true → classifyStreamErr msg = .NO_FIRST_BYTE) ∧
      (containsSub msg feTag = true → containsSub msg fbTag = false →
        classifyStreamErr msg = .NO_FIRST_EVENT) ∧
      (containsSub msg reqTag = true → containsSub msg fbTag = false →
        containsSub msg feTag = false → classifyStreamErr msg = .TIMEOUT) ∧
      (containsSub msg fbTag = false → containsSub msg feTag = false →
        containsSub msg reqTag = false →
        classifyStreamErr msg =
          (if containsSub msg abortErrTag || containsSub msg abortedTag then .TIMEOUT
           else .ERROR)) := by
  intro msg
  refine ⟨?_, ?_, ?_, ?_⟩ <;> intros <;> simp [classifyStreamErr, *]

/-- Witness for C3: each named reason classified at a concrete error
message, and a generic abort message falling through to TIMEOUT. -/
theorem claim_C3_witness :
    classifyStreamErr (("x FIRST_BYTE_TIMEOUT").toList) = .NO_FIRST_BYTE ∧
    classifyStreamErr (("x FIRST_EVENT_TIMEOUT").toList) = .NO_FIRST_EVENT ∧
    classifyStreamErr (("x REQUEST_TIMEOUT").toList) = .TIMEOUT ∧
    classifyStreamErr (("operation was aborted").toList) = .TIMEOUT :=
  ⟨(claim_C3_abort_reason_classification _).1 (by decide),
   (claim_C3_abort_reason_classification _).2.1 (by decide) (by decide),
   (claim_C3_abort_reason_classification _).2.2.1 (by decide) (by decide) (by decide),
   by
     have h := (claim_C3_abort_reason_classification (("operation was aborted").toList)).2.2.2
       (by decide) (by decide) (by decide)
     rw [h]
     decide⟩

/-- C2: the timings invariant `firstEventMs ≤ totalMs` fails on the code.
`toTimings` stops the timer, and `runRawStreamingProbe` logs a snapshot
right after the headers arrive (raw-streaming.ts line 78), freezing
`endMs` before the stream has finished; the dead `timer.stop()` after
the loop (line 143) shows the code intended the timer to still be
running.  With headers at +5 ms (snapshot at +6 ms), first event at
+10 ms and stream end at +20 ms, the returned timings carry
`totalMs = 6` and `firstEventMs = 10 > totalMs`. -/
theorem claim_C2_timer_snapshot_code_bug :
    rawStreamingSuccessTimings 0 5 6 10 10 20 =
      ⟨0, 6, 6, some 5, some 10⟩ ∧
    (rawStreamingSuccessTimings 0 5 6 10 10 20).totalMs <
      (rawStreamingSuccessTimings 0 5 6 10 10 20).firstEventMs.getD 0 := by
  decide

/-- Counterexample to C6: the line "data:  hello" (two spaces) yields the
event data "hello" — the parser strips all leading whitespace with
`trimStart()` — not " hello" with the second space preserved as the
claim states. -/
theorem claim_C6_counterexample :
    parseSSEEvents [("data:  hello\n\n").toList] = [("hello").toList] ∧
    decide (([("hello").toList] : List (List Char)) = [(" hello").toList]) = false := by
  decide

/-- C6 amended: for every line beginning with the 5-character prefix
"data:", parseSSE strips exactly that prefix and then all leading
whitespace (JS trimStart), not just a single space: "data:hello" yields
"hello", "data: hello" yields "hello", and "data:  hello" (two spaces)
also yields "hello". -/
theorem claim_C6_amended_prefix_strip :
    (∀ r : List Char, dataPayload (dataPre ++ r) = some (trimStartL r)) ∧
    parseSSEEvents [("data:hello\n\n").toList] = [("hello").toList] ∧
    parseSSEEvents [("data: hello\n\n").toList] = [("hello").toList] ∧
    parseSSEEvents [("data:  hello\n\n").toList] = [("hello").toList] := by
  refine ⟨?_, by decide, by decide, by decide⟩
  intro r
  simp [dataPayload, dataPre, List.isPrefixOf]

/-- A segment with no occurrence of the blank-line delimiter splits into
no complete segments, with the whole segment as remainder. -/
theorem feedSplit_no_delim : ∀ t : List Char,
    containsSub t nlnl = false → feedSplit t = ([], t) := by
  intro t
  induction t using feedSplit.induct with
  | case1 => intro _; rfl
  | case2 c => intro _; rfl
  | case3 c d rest h ih =>
      intro hc
      exfalso
      obtain ⟨h1, h2⟩ := h
      subst h1; subst h2
      simp [containsSub, nlnl, List.isPrefixOf] at hc
  | case4 c d rest h ih =>
      intro hc
      have hstep : containsSub (c :: d :: rest) nlnl =
          (nlnl.isPrefixOf (c :: d :: rest) || containsSub (d :: rest) nlnl) := rfl
      rw [hstep, Bool.or_eq_false_iff] at hc
      have h2 := ih hc.2
      rw [feedSplit, if_neg h, h2]
      rfl

/-- C7: when the stream ends while the buffer still holds a final
segment with no blank-line delimiter, parseSSE flushes that buffer:
every data-line payload of the trimmed buffer is yielded rather than
silently dropped; in particular the single chunk "data: tail" with no
trailing delimiter yields the event "tail". -/
theorem claim_C7_final_flush :
    (∀ t l p : List Char, containsSub t nlnl = false →
        l ∈ splitNl (trimL t) → dataPayload l = some p →
        p ∈ parseSSEEvents [t]) ∧
    parseSSEEvents [("data: tail").toList] = [("tail").toList] := by
  refine ⟨?_, by decide⟩
  intro t l p hni hl hp
  have hfs := feedSplit_no_delim t hni
  have hev : parseSSEEvents [t] = procSeg t := by
    simp [parseSSEEvents, feedMany, hfs, segsEvents]
  rw [hev, procSeg]
  exact List.mem_filterMap.mpr ⟨l, hl, hp⟩

/-- Witness for C7: the flushed final event "tail" is yielded. -/
theorem claim_C7_witness :
    ("tail").toList ∈ parseSSEEvents [("data: tail").toList] :=
  (claim_C7_final_flush).1 (("data: tail").toList) (("data: tail").toList)
    (("tail").toList) (by decide) (by decide) (by decide)

/-- Every run of the decoder under an abort signal either is never
aborted (and equals the unaborted run), or aborts exactly at a chunk
boundary: the events are those of a whole number of chunks — the chunk
being processed when the signal became active is completed — and the
final flush is suppressed. -/
theorem abortRun_spec :
    ∀ (chunks : List (List Char)) (act : Option Nat) (pts : Nat) (buf : List Char),
      parseSSEAbortRun act pts buf chunks =
          ((feedMany buf chunks).1 ++ procSeg (feedMany buf chunks).2, false) ∨
      ∃ j, j ≤ chunks.length ∧
          parseSSEAbortRun act pts buf chunks = ((feedMany buf (chunks.take j)).1, true) := by
  intro chunks
  induction chunks with
  | nil =>
      intro act pts buf
      by_cases h : sigActive act pts = true
      · right
        exact ⟨0, Nat.le_refl 0, by simp [parseSSEAbortRun, h, feedMany]⟩
      · left
        simp only [Bool.not_eq_true] at h
        simp [parseSSEAbortRun, h, feedMany]
  | cons c cs ih =>
      intro act pts buf
      by_cases h : sigActive act pts = true
      · right
        exact ⟨0, Nat.zero_le _, by simp [parseSSEAbortRun, h, feedMany]⟩
      · simp only [Bool.not_eq_true] at h
        rcases ih act (pts + 1 + (segsEvents (feedSplit (buf ++ c)).1).length)
            (feedSplit (buf ++ c)).2 with hL | ⟨j, hj, hR⟩
        · left
          rw [parseSSEAbortRun]
          simp [h, hL, feedMany, List.append_assoc]
        · right
          refine ⟨j + 1, Nat.succ_le_succ hj, ?_⟩
          rw [parseSSEAbortRun]
          simp [h, hR, feedMany, List.take_succ_cons]

/-- Counterexample to C8: with the signal becoming active at suspension
point 2 — after the read of the single chunk (point 1) and the yield of
its first event "a" (point 2), i.e. while that chunk is still being
processed — the decoder nevertheless yields the chunk's second event
"b" before raising the AbortError at the next read check, instead of
raising immediately and yielding no further event from that chunk. -/
theorem claim_C8_counterexample :
    parseSSEWithSignal (some 2) [("data: a\n\ndata: b\n\n").toList] =
      ([("a").toList, ("b").toList], true) ∧
    decide ((parseSSEWithSignal (some 2) [("data: a\n\ndata: b\n\n").toList]).1 =
      [("a").toList]) = false := by
  decide

/-- C8 amended: parseSSE checks the cancellation signal only at the top
of each read iteration.  Every run under a signal either never observes
an abort and equals the unaborted run, or raises the AbortError at a
chunk boundary after some whole number of chunks: the chunk whose
processing had begun when the signal became active is still processed
to completion with all its events yielded, no event of any later chunk
is yielded, and the final-buffer flush is suppressed. -/
theorem claim_C8_amended_cancellation :
    ∀ (act : Option Nat) (chunks : List (List Char)),
      parseSSEWithSignal act chunks = (parseSSEEvents chunks, false) ∨
      ∃ j, j ≤ chunks.length ∧
        parseSSEWithSignal act chunks = (feedEvents (chunks.take j), true) := by
  intro act chunks
  rcases abortRun_spec chunks act 0 [] with h | ⟨j, hj, h⟩
  · left
    rw [parseSSEWithSignal, h]
    rfl
  · right
    exact ⟨j, hj, by rw [parseSSEWithSignal, h]; rfl⟩

/-- At zero chunks the SDK iteration reports no finish reason. -/
theorem sdkLoop_fst_zero (chunks : List SdkChunk) :
    (sdkLoop chunks).1 = 0 → (sdkLoop chunks).2 = false := by
  cases chunks with
  | nil => intro _; rfl
  | cons c rest => intro h; simp [sdkLoop] at h

/-- C10: in runCopilotSdkStreamingProbe, an iterator that completes
normally with at least one chunk forces doneReceived to true even when
no chunk carried finish reason "stop", so the outcome is OK; the FAIL
outcome is unreachable on this probe's non-exception path; zero chunks
give NO_FIRST_EVENT.  By contrast the raw streaming loop does reach
FAIL on a non-empty event sequence without the sentinel. -/
theorem claim_C10_sdk_done_forced :
    (∀ chunks : List SdkChunk,
       (0 < (runCopilotSdkStreamingModel chunks).chunkCount →
          (runCopilotSdkStreamingModel chunks).outcome = .OK ∧
          (runCopilotSdkStreamingModel chunks).doneReceived = true) ∧
       (runCopilotSdkStreamingModel chunks).outcome ≠ .FAIL ∧
       ((runCopilotSdkStreamingModel chunks).chunkCount = 0 →
          (runCopilotSdkStreamingModel chunks).outcome = .NO_FIRST_EVENT)) ∧
    streamOutcome (streamLoop [("x").toList]) = .FAIL := by
  refine ⟨?_, by decide⟩
  intro chunks
  unfold runCopilotSdkStreamingModel
  by_cases h2 : (sdkLoop chunks).2 = true
  · by_cases h1 : 0 < (sdkLoop chunks).1
    · simp [h2, h1]
      omega
    · exfalso
      have h0 : (sdkLoop chunks).1 = 0 := Nat.eq_zero_of_not_pos h1
      have hz := sdkLoop_fst_zero chunks h0
      rw [h2] at hz
      simp at hz
  · simp only [Bool.not_eq_true] at h2
    by_cases h1 : 0 < (sdkLoop chunks).1
    · simp [h2, h1]
      omega
    · have h0 : (sdkLoop chunks).1 = 0 := Nat.eq_zero_of_not_pos h1
      simp [h2, h0]

/-- Witness for C10: a single content chunk with no finish reason still
yields outcome OK. -/
theorem claim_C10_witness :
    (runCopilotSdkStreamingModel [⟨some (("hi").toList), none⟩]).outcome = .OK :=
  (((claim_C10_sdk_done_forced).1 [⟨some (("hi").toList), none⟩]).1 (by decide)).1

/-- C9: the probe functions are total on their environment and never
let a failure escape: a fetch rejection is caught and classified, a
non-2xx response returns FAIL, a mid-stream read error (when the loop
has not already broken at the sentinel) is caught and classified, and
for the non-streaming probe a rejection or a malformed JSON body is
caught and classified — in every case a ProbeResult value is
returned. -/
theorem claim_C9_probe_error_containment :
    (∀ msg : List Char,
       runRawStreamingProbeModel (.reject msg) =
         ⟨classifyStreamErr msg, none, none, none, some msg⟩) ∧
    (∀ (status : Nat) (errText : List Char) (body : Option StreamBody),
       (runRawStreamingProbeModel (.resolve status false errText body)).outcome = .FAIL) ∧
    (∀ (status : Nat) (errText : List Char) (chunks : List (List Char)) (m : List Char),
       (streamLoop (feedEvents chunks)).2 = false →
       runRawStreamingProbeModel (.resolve status true errText (some ⟨chunks, .errorWith m⟩)) =
         ⟨classifyStreamErr m, some status, none, none, some m⟩) ∧
    (∀ msg : List Char,
       runNonStreamingProbeModel (.reject msg) =
         ⟨classifyNsErr msg, none, none, none, some msg⟩) ∧
    (∀ (status : Nat) (errText : List Char) (m : List Char),
       runNonStreamingProbeModel (.resolve status true errText (.malformed m)) =
         ⟨classifyNsErr m, none, none, none, some m⟩) := by
  refine ⟨fun _ => rfl, ?_, ?_, fun _ => rfl, ?_⟩
  · intro status errText body
    simp [runRawStreamingProbeModel]
  · intro status errText chunks m h
    simp [runRawStreamingProbeModel, h]
  · intro status errText m
    simp [runNonStreamingProbeModel]

/-- Witness for C9: a mid-stream abort rejection after one delivered
event is caught and classified as TIMEOUT from its REQUEST_TIMEOUT
reason. -/
theorem claim_C9_witness :
    runRawStreamingProbeModel
        (.resolve 200 true []
          (some ⟨[("data: x\n\n").toList], .errorWith reqTag⟩)) =
      ⟨classifyStreamErr reqTag, some 200, none, none, some reqTag⟩ :=
  (claim_C9_probe_error_containment).2.2.1 200 [] [("data: x\n\n").toList] reqTag (by decide)
